import Mathlib

/-!
# Verification of the HRM Puzzle Inference frontend controller

A shallow embedding of the browser controller from the repository's main
script: grid state (`updateGrid`, `createSudokuGrid`), session and step
control (`initializeSolver`, `solveStep`, `autoSolve`, `stopAutoSolve`,
`resetPuzzle`), and a small heap model for the
`JSON.parse(JSON.stringify(..))` deep-copy idiom.

Modelling conventions:
* JS arrays of numbers become `List ℕ`; 9×9 grids are `List (List ℕ)` read
  through `gridGet` (all source reads are in bounds 0..8).
* DOM cell classes (`changed`, `ai-filled`) and pending `setTimeout`
  registrations become explicit fields of `GridUI`; button enable/disable
  flags are presentation-only state never referenced by the claims and are
  omitted.
* `alert`, `fetch` requests, and session teardown become explicit entries of
  an event list so that "no network call happens" is a provable statement.
* The cooperative interleaving of `stopAutoSolve` with the `autoSolve` loop is
  represented by a per-iteration boolean: the source is single-threaded, so a
  stop click can run only while `autoSolve` is suspended at the fetch await or
  at the inter-step delay of that iteration; in both positions its sole effect
  on the loop is `autoSolving = false` before the next `while` check.
-/

/-- A JS number matrix: outer list of row arrays, as in the source. -/
abbrev Grid := List (List ℕ)

/-- Reading `g[r][c]`; the source only reads indices 0..8 of 9×9 grids, so the
out-of-range default 0 is never exercised there. -/
def gridGet (g : Grid) (r c : ℕ) : ℕ := (g.getD r []).getD c 0

/-- Writing `g[r][c] = v`. -/
def setCellValue (g : Grid) (r c v : ℕ) : Grid :=
  g.set r ((g.getD r []).set c v)

/-- The `initialPuzzle` constant of the source (the fixed clue layout). -/
def initialPuzzle : Grid :=
  [[5, 3, 0, 0, 7, 0, 0, 0, 0],
   [6, 0, 0, 1, 9, 5, 0, 0, 0],
   [0, 9, 8, 0, 0, 0, 0, 6, 0],
   [8, 0, 0, 0, 6, 0, 0, 0, 3],
   [4, 0, 0, 8, 0, 3, 0, 0, 1],
   [7, 0, 0, 0, 2, 0, 0, 0, 6],
   [0, 6, 0, 0, 0, 0, 2, 8, 0],
   [0, 0, 0, 4, 1, 9, 0, 0, 5],
   [0, 0, 0, 0, 8, 0, 0, 7, 9]]

/-- All 81 cell coordinates in the row-major order of the source's nested
`for` loops. -/
def allCells : List (ℕ × ℕ) :=
  (List.range 9).flatMap fun r => (List.range 9).map fun c => (r, c)

/-- Visual state of the 81 grid cells: which cells currently carry the
transient `changed` class, which carry the persistent `ai-filled` class, the
displayed numbers (`0` renders as empty text), and the pending `setTimeout`
registrations `(row, col, delayMs)` created by `updateGrid`. -/
structure GridUI where
  changed : List (ℕ × ℕ)
  aiFilled : List (ℕ × ℕ)
  texts : Grid
  timeouts : List (ℕ × ℕ × ℕ)

/-- The grid-related mutable globals of the source: `initialPuzzle` (the fixed
clue layout, spec name FixedPuzzle), `currentPuzzle` (spec name CurrentGrid),
and the DOM cell state. -/
structure GridState where
  fixedPuzzle : Grid
  currentPuzzle : Grid
  ui : GridUI

/-- One body of the double `for` loop of `updateGrid` acting on cell `p`:
if the cell value differs between `cur` and `new`, both classes are removed,
the `changed` class is added and a 500 ms settle timeout is registered when
the cell is not a fixed clue, and the displayed text is replaced. -/
def stepCell (fixed cur new : Grid) (ui : GridUI) (p : ℕ × ℕ) : GridUI :=
  if gridGet cur p.1 p.2 ≠ gridGet new p.1 p.2 then
    let ui1 : GridUI :=
      { ui with changed := ui.changed.filter fun q => decide (q ≠ p),
                aiFilled := ui.aiFilled.filter fun q => decide (q ≠ p) }
    let ui2 : GridUI :=
      if gridGet fixed p.1 p.2 = 0 then
        { ui1 with changed := p :: ui1.changed,
                   timeouts := ui1.timeouts ++ [(p.1, p.2, 500)] }
      else ui1
    { ui2 with texts := setCellValue ui2.texts p.1 p.2 (gridGet new p.1 p.2) }
  else ui

/-- The double `for` loop of `updateGrid` over a list of cells. -/
def runCells (fixed cur new : Grid) (ps : List (ℕ × ℕ)) (ui : GridUI) : GridUI :=
  ps.foldl (stepCell fixed cur new) ui

/-- `updateGrid(newPuzzle)` (the spec's `GridStateStore.applyStep`): runs the
per-cell loop over all 81 cells, then replaces `currentPuzzle` with a deep
copy of `newPuzzle` (value-level identity; the heap-level content of the copy
is modelled separately by `jsonDeepCopy`). -/
def updateGrid (s : GridState) (newPuzzle : Grid) : GridState :=
  { s with ui := runCells s.fixedPuzzle s.currentPuzzle newPuzzle allCells s.ui,
           currentPuzzle := newPuzzle }

/-- The `setTimeout` callback registered by `updateGrid` for a changed cell:
after the 500 ms delay the transient `changed` class is removed and the
persistent `ai-filled` class is added. -/
def fireSettle (ui : GridUI) (r c : ℕ) : GridUI :=
  { ui with changed := ui.changed.filter fun q => decide (q ≠ (r, c)),
            aiFilled := (r, c) :: (ui.aiFilled.filter fun q => decide (q ≠ (r, c))) }

/-- `createSudokuGrid(puzzle)`: rebuilds the 81 DOM cells from scratch. Fixed
clues are read-only; nonzero non-clue cells get the `ai-filled` class; no cell
carries the transient `changed` class. Rebuilding detaches the old cell nodes,
so pending settle timeouts can no longer affect the visible grid and are
modelled as cleared. -/
def createSudokuGrid (fixed puzzle : Grid) : GridUI :=
  { changed := [],
    aiFilled := allCells.filter fun p =>
      decide (gridGet fixed p.1 p.2 = 0) && decide (gridGet puzzle p.1 p.2 ≠ 0),
    texts := puzzle,
    timeouts := [] }

/-- Observable side effects of the controller: network requests, grid
applications, error handling, `alert` dialogs, and best-effort session
teardown. `request n` is the `POST /api/step` call of iteration `n`;
`applied n` records that its response grid was handed to `updateGrid`;
`errored n` records the catch handler (alert plus `Error` status) for a
non-2xx response or a transport failure of request `n`. -/
inductive Event where
  | request (n : ℕ)
  | applied (n : ℕ)
  | errored (n : ℕ)
  | alerted (msg : String)
  | initRequest (checkpoint : String)
  | initError
  | teardown (sid : String)
  deriving DecidableEq

/-- The controller's mutable globals: grid state, `currentSessionId`,
`autoSolving`, `currentStep`, and the status line text. -/
structure Sys where
  grid : GridState
  session : Option String
  autoSolving : Bool
  currentStep : ℕ
  status : String

/-- `updateStatus(status, step = null)`: sets the status text and, when a step
index is supplied, the step counter. -/
def updateStatus (s : Sys) (st : String) (step : Option ℕ) : Sys :=
  { s with status := st,
           currentStep := match step with | some k => k | none => s.currentStep }

/-- `stopAutoSolve()`: clears the run-active flag and shows `Stopped`. Inside
a running `autoSolve` loop its `autoSolving = false` effect is what the
per-iteration stop boolean of `runLoop` applies. -/
def stopAutoSolve (s : Sys) : Sys :=
  updateStatus { s with autoSolving := false } "Stopped" none

/-- The JSON body of a successful `POST /api/step` response. -/
structure StepBody where
  current_grid : Grid
  step : ℕ
  finished : Bool

/-- Outcome of one step fetch: an HTTP response with a status code, or a
transport failure (rejected fetch promise). -/
inductive FetchOutcome where
  | response (status : ℕ) (body : StepBody)
  | networkError

/-- `response.ok`: status in the 2xx range. -/
def responseOk (status : ℕ) : Bool := decide (200 ≤ status ∧ status ≤ 299)

/-- A step outcome the catch handler treats as failure: transport failure or
non-2xx status. -/
def isErrorOutcome : FetchOutcome → Bool
  | .networkError => true
  | .response st _ => !(responseOk st)

/-- Result of one `solveStep()` call: the new controller state, the value the
async function returns (`none` models the bare `return` — JS `undefined` — of
the missing-session path; `some b` a returned boolean), and the emitted
events. -/
structure StepCall where
  sys : Sys
  ret : Option Bool
  events : List Event

/-- `solveStep()`: with no active session it alerts and returns without any
network call (the spec's MissingSessionError). Otherwise it issues the step
request; a transport failure or non-2xx response lands in the catch handler
(alert, `Error` status, `return true`); a 2xx response is applied to the grid
via `updateGrid` before the function returns `data.finished`. -/
def solveStep (n : ℕ) (s : Sys) (f : FetchOutcome) : StepCall :=
  match s.session with
  | none => ⟨s, none, [.alerted "Please initialize the solver first"]⟩
  | some _ =>
    let s1 := updateStatus s "Solving step..." none
    match f with
    | .networkError =>
      ⟨updateStatus s1 "Error" none, some true, [.request n, .errored n]⟩
    | .response st body =>
      if responseOk st then
        let s2 : Sys := { s1 with grid := updateGrid s1.grid body.current_grid }
        ⟨updateStatus s2 (if body.finished then "Solved!" else "Step completed")
           (some body.step),
         some body.finished, [.request n, .applied n]⟩
      else ⟨updateStatus s1 "Error" none, some true, [.request n, .errored n]⟩

/-- The `autoSolving = false` effect of a `stopAutoSolve` click interleaved at
one of the two await points (fetch, inter-step delay) of a loop iteration;
`stopSig = false` means no stop click happened during that iteration. -/
def applyStop (stopSig : Bool) (s : Sys) : Sys :=
  if stopSig then { s with autoSolving := false } else s

/-- The `while (autoSolving)` loop of `autoSolve()`. Iteration `n` awaits
`solveStep` (whose response, if any, is fully applied before the call
returns), breaks when the returned value is truthy, otherwise waits the fixed
500 ms delay and re-checks the run-active flag. The oracle list supplies each
iteration's fetch outcome and whether a stop click ran during that iteration;
an exhausted oracle models a backend call that never resolves (the loop
simply stalls, emitting nothing further). -/
def runLoop (n : ℕ) (s : Sys) (oracle : List (FetchOutcome × Bool)) :
    Sys × List Event :=
  match oracle with
  | [] => (s, [])
  | (f, stopSig) :: rest =>
    if s.autoSolving then
      let c := solveStep n s f
      let s2 := applyStop stopSig c.sys
      if c.ret.getD false then ({ s2 with autoSolving := false }, c.events)
      else
        let next := runLoop (n + 1) s2 rest
        (next.1, c.events ++ next.2)
    else (s, [])

/-- `autoSolve()`: returns immediately (silently) when the loop is already
running; otherwise sets the run-active flag, shows `Auto solving...`, runs the
loop, and afterwards shows `Stopped` when the flag is clear. -/
def autoSolve (s : Sys) (oracle : List (FetchOutcome × Bool)) :
    Sys × List Event :=
  if s.autoSolving then (s, [])
  else
    let s0 := updateStatus { s with autoSolving := true } "Auto solving..." none
    let res := runLoop 0 s0 oracle
    (if res.1.autoSolving then res.1 else updateStatus res.1 "Stopped" none,
     res.2)

/-- JS `String.prototype.trim()`: strips leading and trailing whitespace.
Written with structural recursion over the character list so that concrete
inputs evaluate inside the kernel. -/
def jsTrim (v : String) : String :=
  ⟨((v.data.dropWhile Char.isWhitespace).reverse.dropWhile
      Char.isWhitespace).reverse⟩

/-- Outcome of the `POST /api/initialize` fetch. -/
inductive InitOutcome where
  | response (status : ℕ) (sessionId : String)
  | networkError

/-- `initializeSolver()`: trims the checkpoint input; when the result is empty
it alerts and returns without any network call (the spec's MissingInputError).
Otherwise it posts the initialize request; on a 2xx response it stores the
returned session id and resets the step counter, on failure it alerts and
shows `Error`. -/
def initializeSolver (s : Sys) (checkpointValue : String) (f : InitOutcome) :
    Sys × List Event :=
  let s1 := updateStatus s "Initializing solver..." none
  let checkpointPath := jsTrim checkpointValue
  if checkpointPath = "" then
    (updateStatus s1 "Ready" none, [.alerted "Please enter a checkpoint path"])
  else
    match f with
    | .networkError =>
      (updateStatus s1 "Error" none, [.initRequest checkpointPath, .initError])
    | .response st sid =>
      if responseOk st then
        (updateStatus { s1 with session := some sid }
           "Solver initialized - Ready to solve" (some 0),
         [.initRequest checkpointPath])
      else
        (updateStatus s1 "Error" none, [.initRequest checkpointPath, .initError])

/-- The best-effort `DELETE /api/session/{id}` issued by `resetPuzzle` when a
session handle exists; its response is ignored. -/
def teardownEvents : Option String → List Event
  | some sid => [.teardown sid]
  | none => []

/-- `resetPuzzle()`: sets `currentPuzzle` to a deep copy of the fixed clue
layout, rebuilds the DOM grid, issues best-effort session teardown, clears the
session handle and run flag, zeroes the step counter, and shows `Ready`. -/
def resetPuzzle (s : Sys) : Sys × List Event :=
  ({ grid := { fixedPuzzle := s.grid.fixedPuzzle,
               currentPuzzle := s.grid.fixedPuzzle,
               ui := createSudokuGrid s.grid.fixedPuzzle s.grid.fixedPuzzle },
     session := none, autoSolving := false, currentStep := 0,
     status := "Ready" },
   teardownEvents s.session)

/-- A tiny heap of JS row arrays, for the aliasing content of the
`JSON.parse(JSON.stringify(..))` idiom: addresses map to row contents and
`next` is the allocation frontier. -/
structure JsHeap where
  rows : ℕ → List ℕ
  next : ℕ

/-- A grid value as the caller holds it: the list of addresses of its nine
row arrays. -/
abbrev GridRef := List ℕ

/-- Dereferencing a grid: the row contents behind each row address. -/
def readGrid (h : JsHeap) (g : GridRef) : Grid := g.map h.rows

/-- Overwriting the row array at address `a`. -/
def writeRow (h : JsHeap) (a : ℕ) (row : List ℕ) : JsHeap :=
  ⟨fun x => if x = a then row else h.rows x, h.next⟩

/-- The in-place mutation `row[c] = v` of the row array at address `a`. -/
def writeCell (h : JsHeap) (a c v : ℕ) : JsHeap :=
  writeRow h a ((h.rows a).set c v)

/-- Allocating fresh row arrays with the given contents. -/
def allocRows (h : JsHeap) : List (List ℕ) → JsHeap × GridRef
  | [] => (h, [])
  | row :: rest =>
    let h1 : JsHeap := ⟨fun x => if x = h.next then row else h.rows x, h.next + 1⟩
    let out := allocRows h1 rest
    (out.1, h.next :: out.2)

/-- `JSON.parse(JSON.stringify(g))` (source lines storing `currentPuzzle` in
`updateGrid` and `resetPuzzle`): serialize the current contents and rebuild
them in freshly allocated row arrays. -/
def jsonDeepCopy (h : JsHeap) (g : GridRef) : JsHeap × GridRef :=
  allocRows h (readGrid h g)

/-- A grid reference is well formed when all its row addresses are allocated
(below the frontier). -/
abbrev wfRef (h : JsHeap) (g : GridRef) : Prop := ∀ a ∈ g, a < h.next

/-- Concrete two-row heap used to instantiate the deep-copy theorem. -/
def heap0 : JsHeap :=
  ⟨fun a => if a = 0 then [1, 2] else if a = 1 then [3, 4] else [], 2⟩

/-- Concrete grid reference in `heap0`. -/
def gref0 : GridRef := [0, 1]

/-- The page-load grid state: both grids hold the initial puzzle and the DOM
was just built by `createSudokuGrid`. -/
def gs0 : GridState :=
  ⟨initialPuzzle, initialPuzzle, createSudokuGrid initialPuzzle initialPuzzle⟩

/-- A step-result grid that (illegally) rewrites the fixed clue at (0,0)
from 5 to 9. -/
def newBad : Grid := setCellValue initialPuzzle 0 0 9

/-- A well-formed step-result grid: fills the empty cell (0,2) with 4. -/
def newGood : Grid := setCellValue initialPuzzle 0 2 4

/-- Controller state right after a successful initialization. -/
def sReady : Sys :=
  ⟨gs0, some "sess-1", false, 0, "Solver initialized - Ready to solve"⟩

/-- Controller state with the auto-run loop already active. -/
def sBusy : Sys := ⟨gs0, some "sess-1", true, 3, "Auto solving..."⟩

/-- Controller state with no active session. -/
def sNoSession : Sys := ⟨gs0, none, false, 0, "Ready"⟩

/-- A two-step oracle: one ordinary step then a finishing step, no stop
clicks. -/
def oracle0 : List (FetchOutcome × Bool) :=
  [(.response 200 ⟨newGood, 1, false⟩, false),
   (.response 200 ⟨setCellValue newGood 0 3 6, 2, true⟩, false)]

section GridLemmas

variable {fixed cur new : Grid} {ui : GridUI} {p q : ℕ × ℕ}

lemma mem_allCells {r c : ℕ} : (r, c) ∈ allCells ↔ r < 9 ∧ c < 9 := by
  constructor
  · intro h
    simp only [allCells, List.mem_flatMap, List.mem_map, List.mem_range] at h
    obtain ⟨a, ha, b, hb, h⟩ := h
    cases h
    exact ⟨ha, hb⟩
  · rintro ⟨hr, hc⟩
    simp only [allCells, List.mem_flatMap, List.mem_map, List.mem_range]
    exact ⟨r, hr, c, hc, rfl⟩

lemma stepCell_eq_of_same (h : gridGet cur p.1 p.2 = gridGet new p.1 p.2) :
    stepCell fixed cur new ui p = ui := by
  simp [stepCell, h]

lemma stepCell_changed_free (hd : gridGet cur p.1 p.2 ≠ gridGet new p.1 p.2)
    (hf : gridGet fixed p.1 p.2 = 0) :
    (stepCell fixed cur new ui p).changed
      = p :: ui.changed.filter fun q => decide (q ≠ p) := by
  simp [stepCell, hd, hf]

lemma stepCell_changed_fixed (hd : gridGet cur p.1 p.2 ≠ gridGet new p.1 p.2)
    (hf : gridGet fixed p.1 p.2 ≠ 0) :
    (stepCell fixed cur new ui p).changed
      = ui.changed.filter fun q => decide (q ≠ p) := by
  simp [stepCell, hd, hf]

lemma stepCell_timeouts_free (hd : gridGet cur p.1 p.2 ≠ gridGet new p.1 p.2)
    (hf : gridGet fixed p.1 p.2 = 0) :
    (stepCell fixed cur new ui p).timeouts = ui.timeouts ++ [(p.1, p.2, 500)] := by
  simp [stepCell, hd, hf]

lemma stepCell_timeouts_fixed (hd : gridGet cur p.1 p.2 ≠ gridGet new p.1 p.2)
    (hf : gridGet fixed p.1 p.2 ≠ 0) :
    (stepCell fixed cur new ui p).timeouts = ui.timeouts := by
  simp [stepCell, hd, hf]

lemma stepCell_changed_mem_of_ne (hq : q ≠ p) :
    q ∈ (stepCell fixed cur new ui p).changed ↔ q ∈ ui.changed := by
  by_cases hd : gridGet cur p.1 p.2 = gridGet new p.1 p.2
  · rw [stepCell_eq_of_same hd]
  · by_cases hf : gridGet fixed p.1 p.2 = 0
    · rw [stepCell_changed_free hd hf]
      simp [List.mem_filter, hq]
    · rw [stepCell_changed_fixed hd hf]
      simp [List.mem_filter, hq]

lemma stepCell_changed_mem_src (h : q ∈ (stepCell fixed cur new ui p).changed) :
    q ∈ ui.changed ∨
      (q = p ∧ gridGet cur p.1 p.2 ≠ gridGet new p.1 p.2 ∧
        gridGet fixed p.1 p.2 = 0) := by
  by_cases hd : gridGet cur p.1 p.2 = gridGet new p.1 p.2
  · rw [stepCell_eq_of_same hd] at h
    exact Or.inl h
  · by_cases hf : gridGet fixed p.1 p.2 = 0
    · rw [stepCell_changed_free hd hf] at h
      rcases List.mem_cons.mp h with h1 | h1
      · exact Or.inr ⟨h1, hd, hf⟩
      · exact Or.inl (List.mem_filter.mp h1).1
    · rw [stepCell_changed_fixed hd hf] at h
      exact Or.inl (List.mem_filter.mp h).1

lemma stepCell_changed_self (hd : gridGet cur p.1 p.2 ≠ gridGet new p.1 p.2)
    (hf : gridGet fixed p.1 p.2 = 0) :
    p ∈ (stepCell fixed cur new ui p).changed := by
  rw [stepCell_changed_free hd hf]
  exact List.mem_cons_self _ _

lemma stepCell_timeouts_mono {t : ℕ × ℕ × ℕ} (h : t ∈ ui.timeouts) :
    t ∈ (stepCell fixed cur new ui p).timeouts := by
  by_cases hd : gridGet cur p.1 p.2 = gridGet new p.1 p.2
  · rw [stepCell_eq_of_same hd]; exact h
  · by_cases hf : gridGet fixed p.1 p.2 = 0
    · rw [stepCell_timeouts_free hd hf]; exact List.mem_append_left _ h
    · rw [stepCell_timeouts_fixed hd hf]; exact h

lemma stepCell_timeouts_self (hd : gridGet cur p.1 p.2 ≠ gridGet new p.1 p.2)
    (hf : gridGet fixed p.1 p.2 = 0) :
    (p.1, p.2, 500) ∈ (stepCell fixed cur new ui p).timeouts := by
  rw [stepCell_timeouts_free hd hf]
  simp

lemma runCells_cons {ps : List (ℕ × ℕ)} :
    runCells fixed cur new (p :: ps) ui
      = runCells fixed cur new ps (stepCell fixed cur new ui p) := rfl

lemma runCells_changed_not_mem (ps : List (ℕ × ℕ)) :
    ∀ ui : GridUI, q ∉ ps →
      (q ∈ (runCells fixed cur new ps ui).changed ↔ q ∈ ui.changed) := by
  induction ps with
  | nil => intro ui _; exact Iff.rfl
  | cons p ps ih =>
    intro ui hq
    have hqp : q ≠ p := fun h => hq (by simp [h])
    have hqs : q ∉ ps := fun h => hq (List.mem_cons_of_mem _ h)
    rw [runCells_cons]
    exact (ih _ hqs).trans (stepCell_changed_mem_of_ne hqp)

lemma runCells_changed_src (ps : List (ℕ × ℕ)) :
    ∀ (ui : GridUI) (q : ℕ × ℕ), q ∈ (runCells fixed cur new ps ui).changed →
      q ∈ ui.changed ∨
        (q ∈ ps ∧ gridGet cur q.1 q.2 ≠ gridGet new q.1 q.2 ∧
          gridGet fixed q.1 q.2 = 0) := by
  induction ps with
  | nil => intro ui q h; exact Or.inl h
  | cons p ps ih =>
    intro ui q h
    rw [runCells_cons] at h
    rcases ih _ q h with h1 | ⟨hmem, hne, hf⟩
    · rcases stepCell_changed_mem_src h1 with h2 | ⟨rfl, hne, hf⟩
      · exact Or.inl h2
      · exact Or.inr ⟨List.mem_cons_self _ _, hne, hf⟩
    · exact Or.inr ⟨List.mem_cons_of_mem _ hmem, hne, hf⟩

lemma runCells_changed_of_cond (ps : List (ℕ × ℕ)) :
    ∀ (ui : GridUI) (q : ℕ × ℕ), q ∈ ps →
      gridGet cur q.1 q.2 ≠ gridGet new q.1 q.2 → gridGet fixed q.1 q.2 = 0 →
      q ∈ (runCells fixed cur new ps ui).changed := by
  induction ps with
  | nil => intro ui q h; exact absurd h (List.not_mem_nil q)
  | cons p ps ih =>
    intro ui q hmem hne hf
    rw [runCells_cons]
    by_cases hqs : q ∈ ps
    · exact ih _ q hqs hne hf
    · have hqp : q = p := by
        rcases List.mem_cons.mp hmem with h | h
        · exact h
        · exact absurd h hqs
      subst hqp
      exact (runCells_changed_not_mem ps _ hqs).mpr (stepCell_changed_self hne hf)

lemma runCells_timeouts_mono (ps : List (ℕ × ℕ)) :
    ∀ (ui : GridUI) (t : ℕ × ℕ × ℕ), t ∈ ui.timeouts →
      t ∈ (runCells fixed cur new ps ui).timeouts := by
  induction ps with
  | nil => intro ui t h; exact h
  | cons p ps ih =>
    intro ui t h
    rw [runCells_cons]
    exact ih _ t (stepCell_timeouts_mono h)

lemma runCells_timeouts_of_cond (ps : List (ℕ × ℕ)) :
    ∀ (ui : GridUI) (q : ℕ × ℕ), q ∈ ps →
      gridGet cur q.1 q.2 ≠ gridGet new q.1 q.2 → gridGet fixed q.1 q.2 = 0 →
      (q.1, q.2, 500) ∈ (runCells fixed cur new ps ui).timeouts := by
  induction ps with
  | nil => intro ui q h; exact absurd h (List.not_mem_nil q)
  | cons p ps ih =>
    intro ui q hmem hne hf
    rw [runCells_cons]
    by_cases hqs : q ∈ ps
    · exact ih _ q hqs hne hf
    · have hqp : q = p := by
        rcases List.mem_cons.mp hmem with h | h
        · exact h
        · exact absurd h hqs
      subst hqp
      exact runCells_timeouts_mono ps _ _ (stepCell_timeouts_self hne hf)

end GridLemmas

section SysLemmas

variable {s : Sys} {sid : String} {f : FetchOutcome} {st : ℕ} {body : StepBody}

@[simp] lemma updateStatus_session {t : String} {k : Option ℕ} :
    (updateStatus s t k).session = s.session := rfl

@[simp] lemma updateStatus_grid {t : String} {k : Option ℕ} :
    (updateStatus s t k).grid = s.grid := rfl

@[simp] lemma updateStatus_autoSolving {t : String} {k : Option ℕ} :
    (updateStatus s t k).autoSolving = s.autoSolving := rfl

@[simp] lemma updateStatus_status {t : String} {k : Option ℕ} :
    (updateStatus s t k).status = t := rfl

@[simp] lemma applyStop_session {b : Bool} : (applyStop b s).session = s.session := by
  cases b <;> rfl

@[simp] lemma applyStop_grid {b : Bool} : (applyStop b s).grid = s.grid := by
  cases b <;> rfl

@[simp] lemma applyStop_status {b : Bool} : (applyStop b s).status = s.status := by
  cases b <;> rfl

lemma applyStop_true : applyStop true s = { s with autoSolving := false } := rfl

lemma solveStep_none (n : ℕ) (f : FetchOutcome) (h : s.session = none) :
    solveStep n s f = ⟨s, none, [.alerted "Please initialize the solver first"]⟩ := by
  simp [solveStep, h]

lemma solveStep_err (n : ℕ) (h : s.session = some sid)
    (he : isErrorOutcome f = true) :
    solveStep n s f
      = ⟨updateStatus (updateStatus s "Solving step..." none) "Error" none,
         some true, [.request n, .errored n]⟩ := by
  cases f with
  | networkError => simp [solveStep, h]
  | response st body =>
    have hok : responseOk st = false := by simpa [isErrorOutcome] using he
    simp [solveStep, h, hok]

lemma solveStep_ok (n : ℕ) (body : StepBody) (h : s.session = some sid)
    (hok : responseOk st = true) :
    solveStep n s (.response st body)
      = ⟨updateStatus
           { updateStatus s "Solving step..." none with
               grid := updateGrid s.grid body.current_grid }
           (if body.finished then "Solved!" else "Step completed")
           (some body.step),
         some body.finished, [.request n, .applied n]⟩ := by
  simp [solveStep, h, hok]

lemma solveStep_session (n : ℕ) (f : FetchOutcome) :
    (solveStep n s f).sys.session = s.session := by
  cases h : s.session with
  | none => simp [solveStep, h]
  | some sid =>
    cases f with
    | networkError => simp [solveStep, h]
    | response st body =>
      by_cases hok : responseOk st = true
      · simp [solveStep, h, hok]
      · have hokf : responseOk st = false := by simpa using hok
        simp [solveStep, h, hokf]

lemma afterStep_session (n : ℕ) (b : Bool) (f : FetchOutcome) :
    (applyStop b (solveStep n s f).sys).session = s.session := by
  rw [applyStop_session, solveStep_session]

lemma runLoop_idle {oracle : List (FetchOutcome × Bool)} (n : ℕ)
    (h : s.autoSolving = false) : runLoop n s oracle = (s, []) := by
  cases oracle with
  | nil => rfl
  | cons head rest =>
    obtain ⟨f, b⟩ := head
    simp [runLoop, h]

lemma runLoop_err (n : ℕ) (b : Bool) (rest : List (FetchOutcome × Bool))
    (ha : s.autoSolving = true) (hs : s.session = some sid)
    (he : isErrorOutcome f = true) :
    (runLoop n s ((f, b) :: rest)).2 = [.request n, .errored n] ∧
    (runLoop n s ((f, b) :: rest)).1.autoSolving = false ∧
    (runLoop n s ((f, b) :: rest)).1.status = "Error" ∧
    (runLoop n s ((f, b) :: rest)).1.grid = s.grid := by
  have hc := solveStep_err n hs he
  simp [runLoop, ha, hc]

lemma runLoop_fin (n : ℕ) (b : Bool) (rest : List (FetchOutcome × Bool))
    (ha : s.autoSolving = true) (hs : s.session = some sid)
    (hok : responseOk st = true) (hfin : body.finished = true) :
    (runLoop n s ((FetchOutcome.response st body, b) :: rest)).2
      = [.request n, .applied n] := by
  have hc := solveStep_ok n body hs hok
  simp [runLoop, ha, hc, hfin]

lemma runLoop_cont (n : ℕ) (b : Bool) (rest : List (FetchOutcome × Bool))
    (ha : s.autoSolving = true) (hs : s.session = some sid)
    (hok : responseOk st = true) (hfin : body.finished = false) :
    runLoop n s ((FetchOutcome.response st body, b) :: rest)
      = ((runLoop (n + 1)
            (applyStop b (solveStep n s (FetchOutcome.response st body)).sys) rest).1,
         Event.request n :: Event.applied n ::
           (runLoop (n + 1)
             (applyStop b (solveStep n s (FetchOutcome.response st body)).sys) rest).2) := by
  have hc := solveStep_ok n body hs hok
  simp [runLoop, ha, hc, hfin]

lemma runLoop_none_events (oracle : List (FetchOutcome × Bool)) :
    ∀ (n : ℕ) (s : Sys), s.session = none →
      ∀ e ∈ (runLoop n s oracle).2,
        e = Event.alerted "Please initialize the solver first" := by
  induction oracle with
  | nil =>
    intro n s _ e he
    simp [runLoop] at he
  | cons head rest ih =>
    intro n s hs e he
    obtain ⟨f, b⟩ := head
    by_cases ha : s.autoSolving = true
    · have hc := solveStep_none n f hs
      simp [runLoop, ha, hc] at he
      rcases he with he | he
      · exact he
      · exact ih (n + 1) _ (by rw [applyStop_session]; exact hs) e he
    · have hb : s.autoSolving = false := by simpa using ha
      simp [runLoop, hb] at he

lemma reqFacts_halt {n m i : ℕ} {e : Event} (hne : ∀ k, Event.request k ≠ e)
    (h : ([Event.request n, e].get? i) = some (Event.request m)) :
    m = n ∧ i = 0 := by
  rcases i with _ | _ | i
  · simp at h
    exact ⟨h.symm, rfl⟩
  · simp at h
    exact absurd h.symm (hne m)
  · simp at h

lemma runLoop_seq (oracle : List (FetchOutcome × Bool)) :
    ∀ (n : ℕ) (s : Sys) (sid : String), s.session = some sid →
      ∀ i m, ((runLoop n s oracle).2).get? i = some (Event.request m) →
        n ≤ m ∧ (n < m → ∃ j, j < i ∧
          ((runLoop n s oracle).2).get? j = some (Event.applied (m - 1))) := by
  induction oracle with
  | nil =>
    intro n s sid _ i m h
    simp [runLoop] at h
  | cons head rest ih =>
    intro n s sid hs i m h
    obtain ⟨f, b⟩ := head
    by_cases ha : s.autoSolving = true
    case neg =>
      have hb : s.autoSolving = false := by simpa using ha
      simp [runLoop, hb] at h
    case pos =>
      cases f with
      | networkError =>
        have he : isErrorOutcome FetchOutcome.networkError = true := rfl
        have htr := (runLoop_err n b rest ha hs he).1
        rw [htr] at h ⊢
        obtain ⟨rfl, rfl⟩ := reqFacts_halt (fun k => by simp) h
        exact ⟨le_rfl, fun hlt => absurd hlt (lt_irrefl _)⟩
      | response st body =>
        by_cases hok : responseOk st = true
        case neg =>
          have hokf : responseOk st = false := by simpa using hok
          have he : isErrorOutcome (FetchOutcome.response st body) = true := by
            simp [isErrorOutcome, hokf]
          have htr := (runLoop_err n b rest ha hs he).1
          rw [htr] at h ⊢
          obtain ⟨rfl, rfl⟩ := reqFacts_halt (fun k => by simp) h
          exact ⟨le_rfl, fun hlt => absurd hlt (lt_irrefl _)⟩
        case pos =>
          by_cases hfin : body.finished = true
          case pos =>
            have htr := runLoop_fin n b rest ha hs hok hfin
            rw [htr] at h ⊢
            obtain ⟨rfl, rfl⟩ := reqFacts_halt (fun k => by simp) h
            exact ⟨le_rfl, fun hlt => absurd hlt (lt_irrefl _)⟩
          case neg =>
            have hfinf : body.finished = false := by simpa using hfin
            have htr := runLoop_cont n b rest ha hs hok hfinf
            rw [htr] at h ⊢
            have hs2 : (applyStop b
                (solveStep n s (FetchOutcome.response st body)).sys).session
                = some sid := by
              rw [afterStep_session]; exact hs
            rcases i with _ | _ | i
            · simp at h
              subst h
              exact ⟨le_rfl, fun hlt => absurd hlt (lt_irrefl _)⟩
            · simp at h
            · have h2 : ((runLoop (n + 1)
                  (applyStop b (solveStep n s (FetchOutcome.response st body)).sys)
                  rest).2).get? i = some (Event.request m) := by
                simpa using h
              obtain ⟨hle, hgt⟩ := ih (n + 1) _ sid hs2 i m h2
              refine ⟨le_trans (Nat.le_succ n) hle, fun _ => ?_⟩
              by_cases hm : n + 1 < m
              · obtain ⟨j, hj, hjt⟩ := hgt hm
                exact ⟨j + 2, by omega, by simpa using hjt⟩
              · have hm1 : m = n + 1 := le_antisymm (not_lt.mp hm) hle
                subst hm1
                refine ⟨1, by omega, ?_⟩
                simp

section HeapLemmas

lemma allocRows_rows_lo (rows : List (List ℕ)) :
    ∀ (h : JsHeap) (a : ℕ), a < h.next → (allocRows h rows).1.rows a = h.rows a := by
  induction rows with
  | nil => intro h a _; rfl
  | cons row rest ih =>
    intro h a ha
    have hne : a ≠ h.next := Nat.ne_of_lt ha
    have h2 := ih ⟨fun x => if x = h.next then row else h.rows x, h.next + 1⟩ a
      (Nat.lt_succ_of_lt ha)
    simp only [allocRows]
    rw [h2]
    simp [hne]

lemma allocRows_addrs_lo (rows : List (List ℕ)) :
    ∀ (h : JsHeap) (a : ℕ), a ∈ (allocRows h rows).2 → h.next ≤ a := by
  induction rows with
  | nil => intro h a ha; simp [allocRows] at ha
  | cons row rest ih =>
    intro h a ha
    simp only [allocRows] at ha
    rcases List.mem_cons.mp ha with rfl | ha
    · exact le_rfl
    · have h2 := ih ⟨fun x => if x = h.next then row else h.rows x, h.next + 1⟩ a ha
      simp only at h2
      omega

lemma allocRows_read (rows : List (List ℕ)) :
    ∀ h : JsHeap, readGrid (allocRows h rows).1 (allocRows h rows).2 = rows := by
  induction rows with
  | nil => intro h; rfl
  | cons row rest ih =>
    intro h
    simp only [allocRows, readGrid, List.map_cons]
    have h2 := allocRows_rows_lo rest
      ⟨fun x => if x = h.next then row else h.rows x, h.next + 1⟩ h.next
      (Nat.lt_succ_self _)
    have h3 := ih ⟨fun x => if x = h.next then row else h.rows x, h.next + 1⟩
    simp only [readGrid] at h3
    rw [h2, h3]
    simp

lemma readGrid_writeRow_not_mem (h : JsHeap) (g : GridRef) (a : ℕ)
    (row : List ℕ) (hna : a ∉ g) :
    readGrid (writeRow h a row) g = readGrid h g := by
  unfold readGrid writeRow
  apply List.map_congr_left
  intro b hb
  have hne : b ≠ a := fun hba => hna (hba ▸ hb)
  simp [hne]

end HeapLemmas

/-- C1 counterexample: `updateGrid` copies the step grid wholesale, so a step
result that rewrites the fixed clue at (0,0) from 5 to 9 does change the
corresponding `currentPuzzle` cell; fixed-clue cells are compared like any
other cell and are not protected in the data model. -/
theorem updateGrid_fixed_clue_counterexample :
    gridGet gs0.fixedPuzzle 0 0 ≠ 0 ∧
    gridGet (updateGrid gs0 newBad).currentPuzzle 0 0
      ≠ gridGet gs0.currentPuzzle 0 0 := by
  decide

/-- C1 (amended): whenever the applied step grid agrees with the current grid
on every fixed-clue cell — true of well-formed backend step results — each
fixed-clue cell has the same value in `currentPuzzle` before and after
`updateGrid`; and independently of that agreement, a fixed-clue cell is never
newly marked with the transient `changed` class. -/
theorem updateGrid_preserves_fixed (s : GridState) (new : Grid)
    (hagree : ∀ r, r < 9 → ∀ c, c < 9 → gridGet s.fixedPuzzle r c ≠ 0 →
      gridGet new r c = gridGet s.currentPuzzle r c)
    (r c : ℕ) (hr : r < 9) (hc : c < 9)
    (hf : gridGet s.fixedPuzzle r c ≠ 0) :
    gridGet (updateGrid s new).currentPuzzle r c = gridGet s.currentPuzzle r c ∧
    ((r, c) ∈ (updateGrid s new).ui.changed → (r, c) ∈ s.ui.changed) := by
  constructor
  · exact hagree r hr c hc hf
  · intro hmem
    rcases runCells_changed_src allCells s.ui (r, c) hmem with h1 | ⟨-, -, h0⟩
    · exact h1
    · exact absurd h0 hf

/-- C1 witness: a legal step grid filling the empty cell (0,2) keeps the clue
at (0,0) intact and marks nothing at (0,0). -/
theorem updateGrid_preserves_fixed_witness :
    (∀ r, r < 9 → ∀ c, c < 9 → gridGet gs0.fixedPuzzle r c ≠ 0 →
      gridGet newGood r c = gridGet gs0.currentPuzzle r c) ∧
    (gridGet (updateGrid gs0 newGood).currentPuzzle 0 0
        = gridGet gs0.currentPuzzle 0 0 ∧
     ((0, 0) ∈ (updateGrid gs0 newGood).ui.changed → (0, 0) ∈ gs0.ui.changed)) :=
  ⟨by decide,
   updateGrid_preserves_fixed gs0 newGood (by decide) 0 0 (by decide) (by decide)
     (by decide)⟩

/-- C3: `updateGrid` marks exactly the cells where the step grid differs from
the current grid and the fixed puzzle is 0: such a cell receives the transient
`changed` class, its stored value becomes the step grid's value, and a 500 ms
settle timeout (which fires `fireSettle`, moving the cell into the persistent
`ai-filled` category) is registered for it; any cell not satisfying that
condition is never newly marked. -/
theorem updateGrid_applyStep_marks (s : GridState) (new : Grid) (r c : ℕ)
    (hr : r < 9) (hc : c < 9) :
    ((gridGet s.currentPuzzle r c ≠ gridGet new r c ∧
        gridGet s.fixedPuzzle r c = 0) →
      ((r, c) ∈ (updateGrid s new).ui.changed ∧
       gridGet (updateGrid s new).currentPuzzle r c = gridGet new r c ∧
       (r, c, 500) ∈ (updateGrid s new).ui.timeouts)) ∧
    (¬(gridGet s.currentPuzzle r c ≠ gridGet new r c ∧
        gridGet s.fixedPuzzle r c = 0) →
      ((r, c) ∈ (updateGrid s new).ui.changed → (r, c) ∈ s.ui.changed)) := by
  constructor
  · rintro ⟨hne, hf⟩
    refine ⟨?_, rfl, ?_⟩
    · exact runCells_changed_of_cond allCells s.ui (r, c)
        (mem_allCells.mpr ⟨hr, hc⟩) hne hf
    · exact runCells_timeouts_of_cond allCells s.ui (r, c)
        (mem_allCells.mpr ⟨hr, hc⟩) hne hf
  · intro hnot hmem
    rcases runCells_changed_src allCells s.ui (r, c) hmem with h1 | ⟨-, hne, hf⟩
    · exact h1
    · exact absurd ⟨hne, hf⟩ hnot

/-- C3 witness: applying a step grid that fills the empty cell (0,2) with 4 to
the initial state satisfies the difference condition there, so the theorem's
conclusions hold at (0,2). -/
theorem updateGrid_applyStep_marks_witness :
    (gridGet gs0.currentPuzzle 0 2 ≠ gridGet newGood 0 2 ∧
       gridGet gs0.fixedPuzzle 0 2 = 0) ∧
    (((gridGet gs0.currentPuzzle 0 2 ≠ gridGet newGood 0 2 ∧
         gridGet gs0.fixedPuzzle 0 2 = 0) →
       ((0, 2) ∈ (updateGrid gs0 newGood).ui.changed ∧
        gridGet (updateGrid gs0 newGood).currentPuzzle 0 2
          = gridGet newGood 0 2 ∧
        (0, 2, 500) ∈ (updateGrid gs0 newGood).ui.timeouts)) ∧
     (¬(gridGet gs0.currentPuzzle 0 2 ≠ gridGet newGood 0 2 ∧
         gridGet gs0.fixedPuzzle 0 2 = 0) →
       ((0, 2) ∈ (updateGrid gs0 newGood).ui.changed →
         (0, 2) ∈ gs0.ui.changed))) :=
  ⟨by decide, updateGrid_applyStep_marks gs0 newGood 0 2 (by decide) (by decide)⟩

/-- C9: for every controller state, `resetPuzzle` makes `currentPuzzle` equal
to the fixed puzzle, keeps the fixed puzzle, clears transient markers and
pending settle timeouts, clears the session handle and the run-active flag,
zeroes the step counter, shows the idle `Ready` status, and issues best-effort
teardown exactly for a previously existing session. -/
theorem resetPuzzle_spec (s : Sys) :
    (resetPuzzle s).1.grid.currentPuzzle = s.grid.fixedPuzzle ∧
    (resetPuzzle s).1.grid.fixedPuzzle = s.grid.fixedPuzzle ∧
    (resetPuzzle s).1.grid.ui.changed = [] ∧
    (resetPuzzle s).1.grid.ui.timeouts = [] ∧
    (resetPuzzle s).1.session = none ∧
    (resetPuzzle s).1.autoSolving = false ∧
    (resetPuzzle s).1.currentStep = 0 ∧
    (resetPuzzle s).1.status = "Ready" ∧
    (resetPuzzle s).2 = teardownEvents s.session :=
  ⟨rfl, rfl, rfl, rfl, rfl, rfl, rfl, rfl, rfl⟩

/-- C2: in every auto-run, the request of step N+1 can only appear in the
event trace strictly after the application of step N's response: the loop body
awaits `solveStep`, which applies the response via `updateGrid` before
returning, hence at most one step request is ever outstanding. -/
theorem autoSolve_sequential (s : Sys) (oracle : List (FetchOutcome × Bool))
    (i m : ℕ)
    (h : ((autoSolve s oracle).2).get? i = some (Event.request (m + 1))) :
    ∃ j, j < i ∧ ((autoSolve s oracle).2).get? j = some (Event.applied m) := by
  by_cases ha : s.autoSolving = true
  · simp [autoSolve, ha] at h
  · have hb : s.autoSolving = false := by simpa using ha
    have he2 : (autoSolve s oracle).2
        = (runLoop 0
            (updateStatus { s with autoSolving := true } "Auto solving..." none)
            oracle).2 := by
      simp [autoSolve, hb]
    rw [he2] at h ⊢
    cases hsess : (updateStatus { s with autoSolving := true }
        "Auto solving..." none).session with
    | none =>
      have hal := runLoop_none_events oracle 0 _ hsess _ (List.get?_mem h)
      simp at hal
    | some sid =>
      obtain ⟨-, h2⟩ := runLoop_seq oracle 0 _ sid hsess i (m + 1) h
      obtain ⟨j, hj, hjt⟩ := h2 (Nat.succ_pos m)
      refine ⟨j, hj, ?_⟩
      simpa using hjt

/-- C2 witness: a concrete two-step run produces the trace
request 0, applied 0, request 1, applied 1; the request of step 1 sits at
index 2 and the application of step 0 strictly before it. -/
theorem autoSolve_sequential_witness :
    ((autoSolve sReady oracle0).2).get? 2 = some (Event.request 1) ∧
    ∃ j, j < 2 ∧ ((autoSolve sReady oracle0).2).get? j
      = some (Event.applied 0) :=
  ⟨rfl, autoSolve_sequential sReady oracle0 2 0 rfl⟩

/-- C4: a stop click during an in-flight step of a running loop does not
prevent that step's 2xx response from being applied — the final state's grid
is `updateGrid` of the response grid — and afterwards no further step request
is issued: the iteration's two events are the whole remaining trace and the
run-active flag ends false. -/
theorem stopAutoSolve_in_flight (n : ℕ) (s : Sys) (sid : String) (st : ℕ)
    (body : StepBody) (rest : List (FetchOutcome × Bool))
    (ha : s.autoSolving = true) (hs : s.session = some sid)
    (hok : responseOk st = true) (hfin : body.finished = false) :
    (runLoop n s ((FetchOutcome.response st body, true) :: rest)).2
      = [Event.request n, Event.applied n] ∧
    (runLoop n s ((FetchOutcome.response st body, true) :: rest)).1.grid
      = updateGrid s.grid body.current_grid ∧
    (runLoop n s ((FetchOutcome.response st body, true) :: rest)).1.autoSolving
      = false := by
  have htr := runLoop_cont n true rest ha hs hok hfin
  have hstop : (applyStop true
      (solveStep n s (FetchOutcome.response st body)).sys).autoSolving
      = false := rfl
  have hidle : runLoop (n + 1)
      (applyStop true (solveStep n s (FetchOutcome.response st body)).sys) rest
      = (applyStop true (solveStep n s (FetchOutcome.response st body)).sys, []) :=
    runLoop_idle (n + 1) hstop
  rw [htr, hidle]
  refine ⟨rfl, ?_, rfl⟩
  rw [applyStop_grid, solveStep_ok n body hs hok]
  simp [updateStatus]

/-- C4 witness: stopping during a concrete in-flight step still applies its
grid and ends the run with no further request. -/
theorem stopAutoSolve_in_flight_witness :
    sBusy.autoSolving = true ∧ sBusy.session = some "sess-1" ∧
    responseOk 200 = true ∧ (StepBody.mk newGood 4 false).finished = false ∧
    ((runLoop 5 sBusy
        ((FetchOutcome.response 200 (StepBody.mk newGood 4 false), true) :: [])).2
        = [Event.request 5, Event.applied 5] ∧
     (runLoop 5 sBusy
        ((FetchOutcome.response 200 (StepBody.mk newGood 4 false), true) :: [])).1.grid
        = updateGrid sBusy.grid newGood ∧
     (runLoop 5 sBusy
        ((FetchOutcome.response 200 (StepBody.mk newGood 4 false), true) :: [])).1.autoSolving
        = false) :=
  ⟨rfl, rfl, rfl, rfl,
   stopAutoSolve_in_flight 5 sBusy "sess-1" 200 (StepBody.mk newGood 4 false) []
     rfl rfl rfl rfl⟩

/-- C7 counterexample: starting the auto-run loop while it is already running
returns immediately and silently — the state is untouched and the event trace
is empty, so no InvalidStateError (indeed no error or alert of any kind) is
raised, contrary to the claim. -/
theorem autoSolve_busy_counterexample :
    autoSolve sBusy [(FetchOutcome.networkError, false)] = (sBusy, []) := rfl

/-- C7 (amended): a start attempt in a forbidden state issues no step request,
but does not fail with InvalidStateError: when the loop is already running the
attempt returns silently with an empty trace, and when no session is active
every event the attempt produces is the missing-session alert (the loop spins
on that alert without ever reaching the network). -/
theorem autoSolve_forbidden_start (s : Sys) (oracle : List (FetchOutcome × Bool))
    (h : s.autoSolving = true ∨ s.session = none) :
    ∀ e ∈ (autoSolve s oracle).2,
      e = Event.alerted "Please initialize the solver first" := by
  by_cases ha : s.autoSolving = true
  · intro e he
    simp [autoSolve, ha] at he
  · have hb : s.autoSolving = false := by simpa using ha
    rcases h with h | h
    · exact absurd h ha
    · intro e he
      have he2 : e ∈ (runLoop 0
          (updateStatus { s with autoSolving := true } "Auto solving..." none)
          oracle).2 := by
        simpa [autoSolve, hb] using he
      exact runLoop_none_events oracle 0 _ (by simpa using h) e he2

/-- C7 witness: starting auto-run with no active session produces only the
missing-session alert, never a step request. -/
theorem autoSolve_forbidden_start_witness :
    (sNoSession.autoSolving = true ∨ sNoSession.session = none) ∧
    ∀ e ∈ (autoSolve sNoSession [(FetchOutcome.networkError, false)]).2,
      e = Event.alerted "Please initialize the solver first" :=
  ⟨Or.inr rfl,
   autoSolve_forbidden_start sNoSession [(FetchOutcome.networkError, false)]
     (Or.inr rfl)⟩

/-- C8: a transport failure or non-2xx response makes `solveStep` return
`true` with status `Error`, and inside the running loop that iteration's two
events are the whole remaining trace — the loop is terminal after the error
and never retries — with the run-active flag ending false. -/
theorem stepError_terminal (n : ℕ) (s : Sys) (sid : String) (f : FetchOutcome)
    (b : Bool) (rest : List (FetchOutcome × Bool))
    (ha : s.autoSolving = true) (hs : s.session = some sid)
    (hf : isErrorOutcome f = true) :
    (solveStep n s f).ret = some true ∧
    (solveStep n s f).sys.status = "Error" ∧
    (runLoop n s ((f, b) :: rest)).2 = [Event.request n, Event.errored n] ∧
    (runLoop n s ((f, b) :: rest)).1.autoSolving = false := by
  have hc := solveStep_err n hs hf
  obtain ⟨h1, h2, -, -⟩ := runLoop_err n b rest ha hs hf
  exact ⟨by rw [hc], by simp [hc, updateStatus], h1, h2⟩

/-- C8 witness: a concrete HTTP 500 response during a running loop yields the
error result and terminates the run without a retry. -/
theorem stepError_terminal_witness :
    sBusy.autoSolving = true ∧ sBusy.session = some "sess-1" ∧
    isErrorOutcome (FetchOutcome.response 500 (StepBody.mk newGood 4 false))
      = true ∧
    ((solveStep 2 sBusy
        (FetchOutcome.response 500 (StepBody.mk newGood 4 false))).ret
        = some true ∧
     (solveStep 2 sBusy
        (FetchOutcome.response 500 (StepBody.mk newGood 4 false))).sys.status
        = "Error" ∧
     (runLoop 2 sBusy
        ((FetchOutcome.response 500 (StepBody.mk newGood 4 false), false) :: [])).2
        = [Event.request 2, Event.errored 2] ∧
     (runLoop 2 sBusy
        ((FetchOutcome.response 500 (StepBody.mk newGood 4 false), false) :: [])).1.autoSolving
        = false) :=
  ⟨rfl, rfl, rfl,
   stepError_terminal 2 sBusy "sess-1"
     (FetchOutcome.response 500 (StepBody.mk newGood 4 false)) false []
     rfl rfl rfl⟩

/-- C5: when the checkpoint input trims to the empty string,
`initializeSolver` fails locally with the missing-input alert (the spec's
MissingInputError), performs no network call — the whole event trace is the
single alert — and leaves the session handle and the grids unchanged. -/
theorem initializeSolver_missing_input (s : Sys) (v : String) (f : InitOutcome)
    (h : jsTrim v = "") :
    (initializeSolver s v f).1.session = s.session ∧
    (initializeSolver s v f).1.grid = s.grid ∧
    (initializeSolver s v f).2 = [Event.alerted "Please enter a checkpoint path"] := by
  refine ⟨?_, ?_, ?_⟩ <;> simp [initializeSolver, h]

/-- C5 witness: a whitespace-only checkpoint reference trims to empty, and the
failure is local with session and grids untouched. -/
theorem initializeSolver_missing_input_witness :
    jsTrim "   " = "" ∧
    ((initializeSolver sReady "   " InitOutcome.networkError).1.session
        = sReady.session ∧
     (initializeSolver sReady "   " InitOutcome.networkError).1.grid
        = sReady.grid ∧
     (initializeSolver sReady "   " InitOutcome.networkError).2
        = [Event.alerted "Please enter a checkpoint path"]) :=
  ⟨by decide,
   initializeSolver_missing_input sReady "   " InitOutcome.networkError
     (by decide)⟩

/-- C6: with no active session id, `solveStep` returns immediately with the
missing-session alert (the spec's MissingSessionError) as its only event — in
particular no step request is sent — and the controller state, grids included,
is returned unchanged. -/
theorem solveStep_missing_session (n : ℕ) (s : Sys) (f : FetchOutcome)
    (h : s.session = none) :
    solveStep n s f
      = ⟨s, none, [Event.alerted "Please initialize the solver first"]⟩ :=
  solveStep_none n f h

/-- C6 witness: stepping the concrete sessionless state changes nothing and
emits only the alert. -/
theorem solveStep_missing_session_witness :
    sNoSession.session = none ∧
    solveStep 0 sNoSession FetchOutcome.networkError
      = ⟨sNoSession, none, [Event.alerted "Please initialize the solver first"]⟩ :=
  ⟨rfl, solveStep_missing_session 0 sNoSession FetchOutcome.networkError rfl⟩

/-- C10: for a well-formed source grid, the `JSON.parse(JSON.stringify(..))`
copy stored by `updateGrid` and `resetPuzzle` is structurally equal to the
source but shares no row array with it: mutating any cell of a source row
leaves the copy's contents unchanged, and mutating any cell of a copy row
leaves the source's contents unchanged. -/
theorem jsonDeepCopy_no_sharing (h : JsHeap) (g : GridRef) (hwf : wfRef h g) :
    readGrid (jsonDeepCopy h g).1 (jsonDeepCopy h g).2
      = readGrid (jsonDeepCopy h g).1 g ∧
    (∀ a ∈ g, ∀ c v,
      readGrid (writeCell (jsonDeepCopy h g).1 a c v) (jsonDeepCopy h g).2
        = readGrid (jsonDeepCopy h g).1 (jsonDeepCopy h g).2) ∧
    (∀ a ∈ (jsonDeepCopy h g).2, ∀ c v,
      readGrid (writeCell (jsonDeepCopy h g).1 a c v) g
        = readGrid (jsonDeepCopy h g).1 g) := by
  unfold jsonDeepCopy
  have hread : readGrid (allocRows h (readGrid h g)).1
      (allocRows h (readGrid h g)).2 = readGrid h g :=
    allocRows_read (readGrid h g) h
  have hold : readGrid (allocRows h (readGrid h g)).1 g = readGrid h g := by
    unfold readGrid
    apply List.map_congr_left
    intro a hag
    exact allocRows_rows_lo (List.map h.rows g) h a (hwf a hag)
  refine ⟨hread.trans hold.symm, ?_, ?_⟩
  · intro a hag c v
    have hna : a ∉ (allocRows h (readGrid h g)).2 := by
      intro hmem
      have h1 := allocRows_addrs_lo (readGrid h g) h a hmem
      have h2 := hwf a hag
      omega
    unfold writeCell
    rw [readGrid_writeRow_not_mem _ _ _ _ hna]
  · intro a hmem c v
    have hna : a ∉ g := by
      intro hag
      have h1 := allocRows_addrs_lo (readGrid h g) h a hmem
      have h2 := hwf a hag
      omega
    unfold writeCell
    rw [readGrid_writeRow_not_mem _ _ _ _ hna]

/-- C10 witness: copying a concrete two-row grid in a concrete heap yields
structurally equal contents that are immune to mutations of the original and
vice versa. -/
theorem jsonDeepCopy_no_sharing_witness :
    wfRef heap0 gref0 ∧
    (readGrid (jsonDeepCopy heap0 gref0).1 (jsonDeepCopy heap0 gref0).2
        = readGrid (jsonDeepCopy heap0 gref0).1 gref0 ∧
     (∀ a ∈ gref0, ∀ c v,
       readGrid (writeCell (jsonDeepCopy heap0 gref0).1 a c v)
           (jsonDeepCopy heap0 gref0).2
         = readGrid (jsonDeepCopy heap0 gref0).1 (jsonDeepCopy heap0 gref0).2) ∧
     (∀ a ∈ (jsonDeepCopy heap0 gref0).2, ∀ c v,
       readGrid (writeCell (jsonDeepCopy heap0 gref0).1 a c v) gref0
         = readGrid (jsonDeepCopy heap0 gref0).1 gref0)) :=
  ⟨by decide, jsonDeepCopy_no_sharing heap0 gref0 (by decide)⟩
